import Mathlib

/-!
Verification of the fanctrl-rock5b core: the hysteresis fan controller
(`src/control.rs`) and the signal bridge (`src/signal.rs`).

Modelling conventions:
* Rust `f32` temperature/duty values are modelled as exact rationals (`ℚ`);
  the control flow of the source only compares, adds, halves and linearly
  interpolates such values, which the rational model reflects faithfully.
  A separate IEEE-754 binary32 round-to-nearest-even model (`round32` and
  the `*32` operations) is provided for the numerical round-trip claims.
* Rust mutation is modelled by state passing: `Control.update` returns the
  updated controller together with the produced `ControlOutput`.
* `usize` counters are modelled as `Nat`; the C `int` signal argument as
  `Int`; the `u64` mask as `Nat` (kept below `2 ^ 64`).
-/

namespace Fanctrl

/-- Output of one controller tick, from `enum ControlOutput` in
`src/control.rs`. -/
inductive ControlOutput : Type
  | Off : ControlOutput
  | Change : ℚ → ControlOutput
  | Keep : ControlOutput
deriving DecidableEq, Repr

/-- Validation error from `struct ParameterError<T>` in `src/control.rs`. -/
structure ParameterError (T : Type) : Type where
  field : String
  reason : String
  value : T
deriving DecidableEq, Repr

/-- The piecewise-linear duty-cycle rule, from `struct Function` in
`src/control.rs` (T0 = stop, T1 = start, T2 = high, Pmin, Pmax). -/
structure Function : Type where
  stop_temperature : ℚ
  start_temperature : ℚ
  high_temperature : ℚ
  min_duty_cycle : ℚ
  max_duty_cycle : ℚ
deriving DecidableEq, Repr

/-- `Function::new` from `src/control.rs`: the five validation rules,
checked in source order, first violation reported. -/
def Function.new (stop_temperature start_temperature high_temperature
    min_duty_cycle max_duty_cycle : ℚ) : Except (ParameterError ℚ) Function :=
  if stop_temperature ≥ start_temperature then
    Except.error ⟨"start_temperature", "lower than stop_temperature", start_temperature⟩
  else if start_temperature ≥ high_temperature then
    Except.error ⟨"high_temperature", "lower than start_temperature", high_temperature⟩
  else if min_duty_cycle ≤ 0 ∨ min_duty_cycle ≥ 1 then
    Except.error ⟨"min_duty_cycle", "not in (0, 1)", min_duty_cycle⟩
  else if max_duty_cycle ≤ 0 ∨ max_duty_cycle ≥ 1 then
    Except.error ⟨"max_duty_cycle", "not in (0, 1)", max_duty_cycle⟩
  else if min_duty_cycle ≥ max_duty_cycle then
    Except.error ⟨"max_duty_cycle", "lower than min_duty_cycle", max_duty_cycle⟩
  else
    Except.ok ⟨stop_temperature, start_temperature, high_temperature,
      min_duty_cycle, max_duty_cycle⟩

/-- `Function::map` from `src/control.rs`: clamped linear ramp. -/
def Function.map (f : Function) (t : ℚ) : ℚ :=
  if t < f.start_temperature then f.min_duty_cycle
  else if t > f.high_temperature then f.max_duty_cycle
  else f.min_duty_cycle + (f.max_duty_cycle - f.min_duty_cycle)
    * (t - f.start_temperature) / (f.high_temperature - f.start_temperature)

/-- Controller state, from `enum State` in `src/control.rs`.
`Off` / `Function` / `Keep` correspond to the spec's Off / Running /
CoolingDown. -/
inductive State : Type
  | Off : State
  | Function : (last_duty_cycle : ℚ) → State
  | Keep : (remain_time_cycle : Nat) → (keep_temperature : ℚ) →
      (keep_duty_cycle : ℚ) → State
deriving DecidableEq, Repr

/-- The controller aggregate, from `struct Control` in `src/control.rs`. -/
structure Control : Type where
  state : State
  last_temperature : ℚ
  temperature_rule : Function
  lag_time_cycle : Nat
deriving DecidableEq, Repr

/-- `Control::new` from `src/control.rs`: starts `Off`, with the
absolute-zero sentinel `-273.15` as the previous temperature. -/
def Control.new (temperature_rule : Function) (lag_time_cycle : Nat) : Control :=
  { state := State.Off
    last_temperature := -27315 / 100
    temperature_rule := temperature_rule
    lag_time_cycle := lag_time_cycle }

/-- `Control::update` from `src/control.rs`, state passing in place of
mutation: returns the updated controller and the output.  The final
assignment `self.last_temperature = temperature` of the source is the
`last_temperature := temperature` in the result record. -/
def Control.update (c : Control) (temperature : ℚ) : Control × ControlOutput :=
  let next : State × ControlOutput :=
    match c.state with
    | State.Off =>
      if temperature ≤ c.temperature_rule.start_temperature then
        (State.Off, ControlOutput.Off)
      else
        let duty_cycle := c.temperature_rule.map temperature
        (State.Function duty_cycle, ControlOutput.Change duty_cycle)
    | State.Function last_duty_cycle =>
      if temperature ≤ c.last_temperature then
        (State.Keep c.lag_time_cycle c.last_temperature last_duty_cycle,
         ControlOutput.Keep)
      else
        let duty_cycle := c.temperature_rule.map temperature
        (State.Function duty_cycle, ControlOutput.Change duty_cycle)
    | State.Keep remain_time_cycle keep_temperature keep_duty_cycle =>
      if temperature ≤ c.last_temperature then
        if remain_time_cycle > 0 then
          (State.Keep (remain_time_cycle - 1) keep_temperature keep_duty_cycle,
           ControlOutput.Keep)
        else
          if temperature ≤ c.temperature_rule.stop_temperature then
            (State.Off, ControlOutput.Off)
          else
            let kt := (temperature + keep_temperature) / 2
            let kd := c.temperature_rule.map kt
            (State.Keep c.lag_time_cycle kt kd, ControlOutput.Change kd)
      else
        let duty_cycle := c.temperature_rule.map temperature
        (State.Function duty_cycle, ControlOutput.Change duty_cycle)
  ({ c with state := next.1, last_temperature := temperature }, next.2)

/-- `Control::update_force` from `src/control.rs`. -/
def Control.update_force (c : Control) (temperature duty_cycle : ℚ) :
    Control × ControlOutput :=
  ({ c with
      last_temperature := temperature
      state := State.Keep c.lag_time_cycle temperature duty_cycle },
   ControlOutput.Change duty_cycle)

/-- The §4.2 transition table of the specification, written row by row:
next state and output for every (state, temperature) pair, with
`last_temperature` set to the argument in every branch. -/
def tableStep (c : Control) (t : ℚ) : Control × ControlOutput :=
  let next : State × ControlOutput :=
    match c.state with
    | State.Off =>
      if t ≤ c.temperature_rule.start_temperature then
        (State.Off, ControlOutput.Off)
      else
        (State.Function (c.temperature_rule.map t),
         ControlOutput.Change (c.temperature_rule.map t))
    | State.Function d =>
      if t ≤ c.last_temperature then
        (State.Keep c.lag_time_cycle c.last_temperature d, ControlOutput.Keep)
      else
        (State.Function (c.temperature_rule.map t),
         ControlOutput.Change (c.temperature_rule.map t))
    | State.Keep rem anchorT anchorD =>
      if t ≤ c.last_temperature then
        match rem with
        | r + 1 => (State.Keep r anchorT anchorD, ControlOutput.Keep)
        | 0 =>
          if t ≤ c.temperature_rule.stop_temperature then
            (State.Off, ControlOutput.Off)
          else
            (State.Keep c.lag_time_cycle ((t + anchorT) / 2)
              (c.temperature_rule.map ((t + anchorT) / 2)),
             ControlOutput.Change (c.temperature_rule.map ((t + anchorT) / 2)))
      else
        (State.Function (c.temperature_rule.map t),
         ControlOutput.Change (c.temperature_rule.map t))
  ({ c with state := next.1, last_temperature := t }, next.2)

/-- One driver action: a routine tick (`update`) or a forced launch
(`update_force`), as in `src/main.rs`. -/
inductive Step : Type
  | update : (t : ℚ) → Step
  | update_force : (t d : ℚ) → Step
deriving DecidableEq, Repr

/-- Apply one driver action to the controller, discarding the output. -/
def applyStep (c : Control) : Step → Control
  | Step.update t => (c.update t).1
  | Step.update_force t d => (c.update_force t d).1

/-- Run a finite sequence of driver actions. -/
def run (c : Control) : List Step → Control
  | [] => c
  | s :: ss => run (applyStep c s) ss

/-- Outputs of a sequence of `update` calls, one per temperature sample. -/
def runOutputs (c : Control) : List ℚ → List ControlOutput
  | [] => []
  | t :: ts => (c.update t).2 :: runOutputs (c.update t).1 ts

/-- The duty-cycle rule of the spec's test scenarios:
T0 = 30, T1 = 40, T2 = 70, Pmin = 0.5, Pmax = 0.9. -/
def exampleRule : Function :=
  { stop_temperature := 30
    start_temperature := 40
    high_temperature := 70
    min_duty_cycle := 1 / 2
    max_duty_cycle := 9 / 10 }

/-! ### IEEE-754 binary32 model

A faithful model of `f32` arithmetic in the normal range: a value is an
exact dyadic `m · 2^e`, and each operation computes the exact result and
rounds its significand to 24 bits, ties to even (for division through a
64-bit-headroom quotient with a sticky bit, the standard guard/round/
sticky scheme).  Overflow, subnormals, infinities and NaN are irrelevant
at the magnitudes the controller handles and are not modelled. -/

/-- Fuelled base-2 logarithm on `Nat` (`natLog2 fuel n` is `⌊log₂ n⌋` for
`1 ≤ n < 2 ^ fuel`). -/
def natLog2 : Nat → Nat → Nat
  | 0, _ => 0
  | fuel + 1, n => if 2 ≤ n then natLog2 fuel (n / 2) + 1 else 0

/-- Number of binary digits of a natural number below `2 ^ 256`. -/
def bitlen (n : Nat) : Nat := if n = 0 then 0 else natLog2 256 n + 1

/-- A binary32 value: exact significand times a power of two. -/
structure F32 : Type where
  m : Int
  e : Int
deriving DecidableEq, Repr

/-- Round an exact dyadic `m · 2^e` so the significand fits in 24 bits:
truncate, then round to nearest with ties to even. -/
def roundSig (m : Int) (e : Int) : F32 :=
  if m = 0 then ⟨0, 0⟩
  else
    let s := m.natAbs
    let bl := bitlen s
    if bl ≤ 24 then ⟨m, e⟩
    else
      let shift := bl - 24
      let q := s >>> shift
      let r := s % (2 ^ shift)
      let half := 2 ^ (shift - 1)
      let q2 := if half < r then q + 1
        else if r < half then q
        else if q % 2 = 0 then q else q + 1
      ⟨if m < 0 then -(q2 : Int) else (q2 : Int), e + (shift : Int)⟩

/-- Significands of two values brought to their common (minimal)
exponent; comparisons and exact sums are integer operations there. -/
def alignSig (a b : F32) : Int × Int :=
  let e := min a.e b.e
  (a.m * 2 ^ (a.e - e).toNat, b.m * 2 ^ (b.e - e).toNat)

/-- `f32` addition: exact aligned sum, then binary32 rounding. -/
def fadd (a b : F32) : F32 :=
  roundSig ((alignSig a b).1 + (alignSig a b).2) (min a.e b.e)

/-- `f32` subtraction: exact aligned difference, then binary32 rounding. -/
def fsub (a b : F32) : F32 :=
  roundSig ((alignSig a b).1 - (alignSig a b).2) (min a.e b.e)

/-- `f32` multiplication: exact product, then binary32 rounding. -/
def fmul (a b : F32) : F32 := roundSig (a.m * b.m) (a.e + b.e)

/-- `f32` division: quotient computed with at least 64 headroom bits and
a sticky bit recording a non-zero remainder, then binary32 rounding. -/
def fdiv (a b : F32) : F32 :=
  if a.m = 0 then ⟨0, 0⟩
  else
    let n := a.m.natAbs
    let d := b.m.natAbs
    let k := bitlen d + 64
    let q0 := (n <<< k) / d
    let q1 : Nat := 2 * q0 + (if (n <<< k) % d = 0 then 0 else 1)
    roundSig (if a.m * b.m < 0 then -(q1 : Int) else (q1 : Int))
      (a.e - b.e - (k : Int) - 1)

/-- Value order on binary32 numbers, by aligned significands. -/
def F32.lt (a b : F32) : Prop := (alignSig a b).1 < (alignSig a b).2

/-- Value order (non-strict) on binary32 numbers. -/
def F32.le (a b : F32) : Prop := (alignSig a b).1 ≤ (alignSig a b).2

instance (a b : F32) : Decidable (F32.lt a b) :=
  inferInstanceAs (Decidable ((alignSig a b).1 < (alignSig a b).2))

instance (a b : F32) : Decidable (F32.le a b) :=
  inferInstanceAs (Decidable ((alignSig a b).1 ≤ (alignSig a b).2))

/-- Strip factors of two from the significand (fuelled). -/
def canonAux : Nat → Nat → Int → Nat × Int
  | 0, n, e => (n, e)
  | fuel + 1, n, e =>
    if n % 2 = 0 ∧ n ≠ 0 then canonAux fuel (n / 2) (e + 1) else (n, e)

/-- Canonical representative: odd significand (or canonical zero), so two
representations denote the same value exactly when their canonical forms
are equal. -/
def F32.canon (x : F32) : F32 :=
  if x.m = 0 then ⟨0, 0⟩
  else
    let p := canonAux 256 x.m.natAbs x.e
    ⟨if x.m < 0 then -(p.1 : Int) else (p.1 : Int), p.2⟩

/-- An integer as a binary32 value (exact below `2 ^ 24`). -/
def f32lit (n : Int) : F32 := roundSig n 0

/-- The binary32 value nearest the fraction `a / b` — what the `f32`
literal `a/b` denotes in the source (e.g. `0.9f32`). -/
def f32frac (a b : Int) : F32 := fdiv ⟨a, 0⟩ ⟨b, 0⟩

/-- The duty-cycle rule with binary32 fields, mirroring
`struct Function`. -/
structure Function32 : Type where
  stop_temperature : F32
  start_temperature : F32
  high_temperature : F32
  min_duty_cycle : F32
  max_duty_cycle : F32
deriving DecidableEq, Repr

/-- `Function::new` from `src/control.rs` over binary32 values: the same
five checks in source order. -/
def Function32.new (stop_temperature start_temperature high_temperature
    min_duty_cycle max_duty_cycle : F32) :
    Except (ParameterError F32) Function32 :=
  if F32.le start_temperature stop_temperature then
    Except.error ⟨"start_temperature", "lower than stop_temperature", start_temperature⟩
  else if F32.le high_temperature start_temperature then
    Except.error ⟨"high_temperature", "lower than start_temperature", high_temperature⟩
  else if F32.le min_duty_cycle (f32lit 0) ∨ F32.le (f32lit 1) min_duty_cycle then
    Except.error ⟨"min_duty_cycle", "not in (0, 1)", min_duty_cycle⟩
  else if F32.le max_duty_cycle (f32lit 0) ∨ F32.le (f32lit 1) max_duty_cycle then
    Except.error ⟨"max_duty_cycle", "not in (0, 1)", max_duty_cycle⟩
  else if F32.le max_duty_cycle min_duty_cycle then
    Except.error ⟨"max_duty_cycle", "lower than min_duty_cycle", max_duty_cycle⟩
  else
    Except.ok ⟨stop_temperature, start_temperature, high_temperature,
      min_duty_cycle, max_duty_cycle⟩

/-- `Function::map` from `src/control.rs` over binary32 values: the same
branches, every `f32` operation rounding as the hardware does; the
`*`, `/`, `+` of the source line associate as
`min + (((max - min) * (t - start)) / (high - start))`. -/
def Function32.map (f : Function32) (t : F32) : F32 :=
  if F32.lt t f.start_temperature then f.min_duty_cycle
  else if F32.lt f.high_temperature t then f.max_duty_cycle
  else fadd f.min_duty_cycle
    (fdiv (fmul (fsub f.max_duty_cycle f.min_duty_cycle)
                (fsub t f.start_temperature))
          (fsub f.high_temperature f.start_temperature))

/-- The scenario rule with the binary32 field values the source actually
stores (`0.9f32` is not exactly 9/10). -/
def exampleRule32 : Function32 :=
  ⟨f32lit 30, f32lit 40, f32lit 70, f32frac 1 2, f32frac 9 10⟩

/-! ### Signal bridge (`src/signal.rs`)

The shared `u64` mask is a `Nat` below `2 ^ 64`.  `wait`'s interaction
with the condition variable is modelled by two explicit parameters: the
mask bits delivered while the caller is blocked (`arrivals`) and whether
the timed wait expired (`timedOut`).  Lock poisoning is not modelled (the
process never shares the mutex with a panicking thread). -/

/-- `u64::trailing_zeros`: index of the lowest set bit, 64 when zero. -/
def trailing_zeros (m : Nat) : Nat :=
  (((List.range 64).find? fun i => m.testBit i).getD 64)

/-- Bitwise complement on 64-bit words (`!m` in the source). -/
def complement64 (x : Nat) : Nat := (2 ^ 64 - 1) ^^^ x

/-- The signal handler from `src/signal.rs`: out-of-range numbers are
ignored, otherwise the bit at the signal number is OR-ed into the mask. -/
def handler (sig : Int) (mask : Nat) : Nat :=
  if sig ≤ 0 ∨ 64 ≤ sig then mask
  else mask ||| (1 <<< sig.toNat)

/-- The drain step `wait` performs on the mask (both before blocking and
after waking): take `trailing_zeros`, and if it is below 32 clear that
bit and return it.  Returns the signal number and the new mask, or
`none` when the check fails. -/
def drainLowest (mask : Nat) : Option (Nat × Nat) :=
  let offset := trailing_zeros mask
  if offset < 32 then some (offset, mask &&& complement64 (1 <<< offset))
  else none

/-- `wait` from `src/signal.rs`: pre-check the mask, otherwise block
(bits in `arrivals` are delivered meanwhile); on timeout return 0
without re-checking, on wake re-check once and otherwise return the
`unreachable` error.  Result value and final mask. -/
def wait (mask arrivals : Nat) (timedOut : Bool) : Except Unit Nat × Nat :=
  match drainLowest mask with
  | some (off, m2) => (Except.ok off, m2)
  | none =>
    let mask2 := mask ||| arrivals
    if timedOut then (Except.ok 0, mask2)
    else
      match drainLowest mask2 with
      | some (off, m2) => (Except.ok off, m2)
      | none => (Except.error (), mask2)

/-- The cooling-down countdown never exceeds the configured lag: for
every `Keep` state the remaining count is bounded by the controller's
`lag_time_cycle` field. -/
def remBound (c : Control) : Prop :=
  ∀ r a d, c.state = State.Keep r a d → r ≤ c.lag_time_cycle

end Fanctrl

deriving instance DecidableEq for Except

namespace Fanctrl

/-! ### Helper lemmas -/

theorem applyStep_lag (c : Control) (s : Step) :
    (applyStep c s).lag_time_cycle = c.lag_time_cycle := by
  cases s <;> rfl

theorem update_state_cases (c : Control) (t : ℚ) :
    (c.update t).1.state = State.Off ∨
    (∃ d, (c.update t).1.state = State.Function d) ∨
    (∃ a d, (c.update t).1.state = State.Keep c.lag_time_cycle a d) ∨
    (∃ r a d, c.state = State.Keep r a d ∧ 0 < r ∧
      (c.update t).1.state = State.Keep (r - 1) a d) := by
  obtain ⟨st, last, rule, lag⟩ := c
  cases st with
  | Off =>
    by_cases h1 : t ≤ rule.start_temperature
    · left; simp [Control.update, h1]
    · right; left; exact ⟨rule.map t, by simp [Control.update, h1]⟩
  | Function d0 =>
    by_cases h1 : t ≤ last
    · right; right; left
      exact ⟨last, d0, by simp [Control.update, h1]⟩
    · right; left; exact ⟨rule.map t, by simp [Control.update, h1]⟩
  | Keep rem ka kd =>
    by_cases h1 : t ≤ last
    · by_cases h2 : rem > 0
      · right; right; right
        exact ⟨rem, ka, kd, rfl, h2, by simp [Control.update, h1, h2]⟩
      · by_cases h3 : t ≤ rule.stop_temperature
        · left; simp [Control.update, h1, h2, h3]
        · right; right; left
          exact ⟨(t + ka) / 2, rule.map ((t + ka) / 2),
            by simp [Control.update, h1, h2, h3]⟩
    · right; left; exact ⟨rule.map t, by simp [Control.update, h1]⟩

theorem remBound_applyStep (c : Control) (s : Step) (h : remBound c) :
    remBound (applyStep c s) := by
  cases s with
  | update t =>
    intro r a d hst
    rw [applyStep_lag]
    rcases update_state_cases c t with h0 | ⟨d0, h0⟩ | ⟨a0, d0, h0⟩ |
      ⟨r0, a0, d0, hc, hpos, h0⟩ <;>
      rw [show applyStep c (Step.update t) = (c.update t).1 from rfl, h0] at hst
    · exact absurd hst (by simp)
    · exact absurd hst (by simp)
    · rw [State.Keep.injEq] at hst
      omega
    · have hb := h r0 a0 d0 hc
      rw [State.Keep.injEq] at hst
      omega
  | update_force t d0 =>
    intro r a d hst
    rw [applyStep_lag]
    rw [show applyStep c (Step.update_force t d0) = (c.update_force t d0).1 from rfl] at hst
    rw [show ((c.update_force t d0).1).state =
      State.Keep c.lag_time_cycle t d0 from rfl, State.Keep.injEq] at hst
    omega

theorem run_lag (ss : List Step) (c : Control) :
    (run c ss).lag_time_cycle = c.lag_time_cycle := by
  induction ss generalizing c with
  | nil => rfl
  | cons s ss ih => rw [run, ih, applyStep_lag]

theorem run_remBound (ss : List Step) (c : Control) (h : remBound c) :
    remBound (run c ss) := by
  induction ss generalizing c with
  | nil => exact h
  | cons s ss ih => exact ih _ (remBound_applyStep c s h)

/-! ### Claim theorems -/

/-- C1: for every controller state and every temperature, `Control.update`
takes exactly the transition and produces exactly the output of the §4.2
transition table (`tableStep`), and in every branch the final step sets
`last_temperature` to the argument. -/
theorem update_matches_table (c : Control) (t : ℚ) :
    c.update t = tableStep c t ∧ (c.update t).1.last_temperature = t := by
  obtain ⟨st, last, rule, lag⟩ := c
  refine ⟨?_, rfl⟩
  cases st with
  | Off =>
    simp only [Control.update, tableStep]
  | Function d =>
    simp only [Control.update, tableStep]
  | Keep rem a d =>
    cases rem with
    | zero =>
      simp only [Control.update, tableStep]
      split_ifs <;> first | rfl | omega
    | succ r =>
      simp only [Control.update, tableStep]
      split_ifs <;> first | rfl | omega

/-- C3: `Function.map` returns the floor below `start_temperature`, the
ceiling above `high_temperature`, the interpolation formula on the closed
ramp, and the formula agrees with the clamps at both boundaries
(continuity of the piecewise definition). -/
theorem map_clamped_continuous (f : Function)
    (h : f.start_temperature < f.high_temperature) (t : ℚ) :
    (t < f.start_temperature → f.map t = f.min_duty_cycle) ∧
    (t > f.high_temperature → f.map t = f.max_duty_cycle) ∧
    (f.start_temperature ≤ t → t ≤ f.high_temperature →
      f.map t = f.min_duty_cycle + (f.max_duty_cycle - f.min_duty_cycle)
        * (t - f.start_temperature) / (f.high_temperature - f.start_temperature)) ∧
    f.map f.start_temperature = f.min_duty_cycle ∧
    f.map f.high_temperature = f.max_duty_cycle := by
  refine ⟨?_, ?_, ?_, ?_, ?_⟩
  · intro ht
    simp [Function.map, ht]
  · intro ht
    have h1 : ¬ t < f.start_temperature := by linarith
    simp [Function.map, h1, ht]
  · intro h1 h2
    have hx : ¬ t < f.start_temperature := not_lt.mpr h1
    have hy : ¬ t > f.high_temperature := not_lt.mpr h2
    simp [Function.map, hx, hy]
  · have hx : ¬ f.start_temperature < f.start_temperature := lt_irrefl _
    have hy : ¬ f.start_temperature > f.high_temperature := not_lt.mpr h.le
    simp [Function.map, hx, hy]
  · have hx : ¬ f.high_temperature < f.start_temperature := not_lt.mpr h.le
    have hy : ¬ f.high_temperature > f.high_temperature := lt_irrefl _
    have hne : f.high_temperature - f.start_temperature ≠ 0 :=
      sub_ne_zero.mpr (ne_of_gt h)
    simp only [Function.map, hx, hy, if_false]
    rw [mul_div_assoc, div_self hne, mul_one]
    ring

/-- C3 witness: the boundary and clamp facts instantiated at the scenario
rule and a concrete temperature. -/
theorem map_clamped_continuous_w :
    exampleRule.start_temperature < exampleRule.high_temperature ∧
    exampleRule.map 20 = exampleRule.min_duty_cycle ∧
    exampleRule.map exampleRule.start_temperature = exampleRule.min_duty_cycle :=
  ⟨by norm_num [exampleRule],
   (map_clamped_continuous exampleRule (by norm_num [exampleRule]) 20).1
     (by norm_num [exampleRule]),
   (map_clamped_continuous exampleRule (by norm_num [exampleRule]) 20).2.2.2.1⟩

set_option maxHeartbeats 1000000 in
/-- Evaluation of the spec's end-to-end scenario, shared by the claims
about it: the outputs the code produces tick by tick. -/
theorem scenarioEval :
    runOutputs (Control.new exampleRule 2) [35, 45, 50, 48, 47, 46, 20] =
      [ControlOutput.Off, ControlOutput.Change (17 / 30),
       ControlOutput.Change (19 / 30), ControlOutput.Keep, ControlOutput.Keep,
       ControlOutput.Keep, ControlOutput.Off] := by
  norm_num [runOutputs, Control.update, Control.new, Function.map, exampleRule]

/-- C4 counterexample: in the spec's end-to-end scenario the second
output is not `Change(0.5)` (it is `Change(17/30)`, since
`map(45) = 0.5 + 0.4·5/30`). -/
theorem scenario_second_output_ne :
    (runOutputs (Control.new exampleRule 2) [35, 45, 50, 48, 47, 46, 20])[1]? ≠
      some (ControlOutput.Change (1 / 2)) := by
  rw [scenarioEval]
  norm_num

/-- C4 (amended): the scenario with `lag_cycles = 2` and temperatures
`35, 45, 50, 48, 47, 46, 20` produces exactly
`Off, Change(17/30), Change(19/30), Keep, Keep, Keep, Off`. -/
theorem scenario_outputs :
    runOutputs (Control.new exampleRule 2) [35, 45, 50, 48, 47, 46, 20] =
      [ControlOutput.Off, ControlOutput.Change (17 / 30),
       ControlOutput.Change (19 / 30), ControlOutput.Keep, ControlOutput.Keep,
       ControlOutput.Keep, ControlOutput.Off] :=
  scenarioEval

/-- C5 counterexample: on the very first tick the temperature 35 is
strictly above the `-273.15` sentinel, yet a controller in `Off` returns
`Off`, not `Change(map 35)`, because `35 ≤ start_temperature`. -/
theorem off_cold_rise_counterexample :
    (Control.new exampleRule 2).last_temperature < 35 ∧
    ((Control.new exampleRule 2).update 35).2 ≠
      ControlOutput.Change ((Control.new exampleRule 2).temperature_rule.map 35) := by
  constructor
  · norm_num [Control.new]
  · norm_num [Control.new, Control.update, Function.map, exampleRule]
    simp

/-- C5 (amended): for every temperature strictly above the previous
tick's reading, `update` returns `Change(map t)` — except in the `Off`
state with `t ≤ start_temperature`, where it returns `Off`. -/
theorem rising_gives_change (c : Control) (t : ℚ)
    (hrise : c.last_temperature < t)
    (hoff : ¬ (c.state = State.Off ∧ t ≤ c.temperature_rule.start_temperature)) :
    (c.update t).2 = ControlOutput.Change (c.temperature_rule.map t) := by
  obtain ⟨st, last, rule, lag⟩ := c
  cases st with
  | Off =>
    push_neg at hoff
    have hns : ¬ t ≤ rule.start_temperature := not_le.mpr (hoff rfl)
    simp [Control.update, hns]
  | Function d =>
    have h1 : ¬ t ≤ last := not_le.mpr hrise
    simp [Control.update, h1]
  | Keep rem a d =>
    have h1 : ¬ t ≤ last := not_le.mpr hrise
    simp [Control.update, h1]

/-- C5 witness: a `Running` controller at 45 °C sees 50 °C and changes to
`map 50`. -/
theorem rising_gives_change_w :
    (45 : ℚ) < 50 ∧
    ((⟨State.Function (17 / 30), 45, exampleRule, 2⟩ : Control).update 50).2 =
      ControlOutput.Change (exampleRule.map 50) :=
  ⟨by norm_num,
   rising_gives_change ⟨State.Function (17 / 30), 45, exampleRule, 2⟩ 50
     (by norm_num) (by simp)⟩

/-- C6: `Function.new` checks its five rules in source order; the first
violated rule determines the single reported error, which carries the
offending field's name and the supplied value; when all rules hold the
constructor succeeds with exactly the given fields. -/
theorem new_first_violation (t0 t1 t2 p q : ℚ) :
    (t0 ≥ t1 → Function.new t0 t1 t2 p q =
      Except.error ⟨"start_temperature", "lower than stop_temperature", t1⟩) ∧
    (t0 < t1 → t1 ≥ t2 → Function.new t0 t1 t2 p q =
      Except.error ⟨"high_temperature", "lower than start_temperature", t2⟩) ∧
    (t0 < t1 → t1 < t2 → (p ≤ 0 ∨ p ≥ 1) → Function.new t0 t1 t2 p q =
      Except.error ⟨"min_duty_cycle", "not in (0, 1)", p⟩) ∧
    (t0 < t1 → t1 < t2 → 0 < p → p < 1 → (q ≤ 0 ∨ q ≥ 1) →
      Function.new t0 t1 t2 p q =
        Except.error ⟨"max_duty_cycle", "not in (0, 1)", q⟩) ∧
    (t0 < t1 → t1 < t2 → 0 < p → p < 1 → 0 < q → q < 1 → p ≥ q →
      Function.new t0 t1 t2 p q =
        Except.error ⟨"max_duty_cycle", "lower than min_duty_cycle", q⟩) ∧
    (t0 < t1 → t1 < t2 → 0 < p → p < 1 → 0 < q → q < 1 → p < q →
      Function.new t0 t1 t2 p q = Except.ok ⟨t0, t1, t2, p, q⟩) := by
  refine ⟨?_, ?_, ?_, ?_, ?_, ?_⟩
  · intro h1
    unfold Function.new
    rw [if_pos h1]
  · intro h1 h2
    unfold Function.new
    rw [if_neg (not_le.mpr h1), if_pos h2]
  · intro h1 h2 h3
    unfold Function.new
    rw [if_neg (not_le.mpr h1), if_neg (not_le.mpr h2), if_pos h3]
  · intro h1 h2 h3 h4 h5
    unfold Function.new
    have hp : ¬ (p ≤ 0 ∨ p ≥ 1) := by push_neg; exact ⟨h3, h4⟩
    rw [if_neg (not_le.mpr h1), if_neg (not_le.mpr h2), if_neg hp, if_pos h5]
  · intro h1 h2 h3 h4 h5 h6 h7
    unfold Function.new
    have hp : ¬ (p ≤ 0 ∨ p ≥ 1) := by push_neg; exact ⟨h3, h4⟩
    have hq : ¬ (q ≤ 0 ∨ q ≥ 1) := by push_neg; exact ⟨h5, h6⟩
    rw [if_neg (not_le.mpr h1), if_neg (not_le.mpr h2), if_neg hp, if_neg hq,
      if_pos h7]
  · intro h1 h2 h3 h4 h5 h6 h7
    unfold Function.new
    have hp : ¬ (p ≤ 0 ∨ p ≥ 1) := by push_neg; exact ⟨h3, h4⟩
    have hq : ¬ (q ≤ 0 ∨ q ≥ 1) := by push_neg; exact ⟨h5, h6⟩
    rw [if_neg (not_le.mpr h1), if_neg (not_le.mpr h2), if_neg hp, if_neg hq,
      if_neg (not_le.mpr h7)]

/-- C6 witness: the spec's instance `T0 = 40 ≥ T1 = 30` is rejected with
`start_temperature` as the offending field and the supplied value 30. -/
theorem new_first_violation_w :
    (40 : ℚ) ≥ 30 ∧
    Function.new 40 30 70 (1 / 2) (9 / 10) =
      Except.error ⟨"start_temperature", "lower than stop_temperature", 30⟩ :=
  ⟨by norm_num, (new_first_violation 40 30 70 (1 / 2) (9 / 10)).1 (by norm_num)⟩

set_option maxRecDepth 100000 in
/-- C7: under the binary32 model, the rule built from
`T0 = 30, T1 = 40, T2 = 70, Pmin = 0.5, Pmax = 0.9` maps 40 to the f32
value of 0.5, 70 to the f32 value of 0.9, 55 to the f32 value of 0.7, 20
to 0.5 and 100 to 0.9, all exactly (equality of binary32 values, i.e. of
canonical forms); the constructor accepts these parameters. -/
theorem map32_round_trip :
    Function32.new (f32lit 30) (f32lit 40) (f32lit 70) (f32frac 1 2)
      (f32frac 9 10) = Except.ok exampleRule32 ∧
    (exampleRule32.map (f32lit 40)).canon = (f32frac 1 2).canon ∧
    (exampleRule32.map (f32lit 70)).canon = (f32frac 9 10).canon ∧
    (exampleRule32.map (f32lit 55)).canon = (f32frac 7 10).canon ∧
    (exampleRule32.map (f32lit 20)).canon = (f32frac 1 2).canon ∧
    (exampleRule32.map (f32lit 100)).canon = (f32frac 9 10).canon := by decide

/-- C2: with only bit 34 pending the mask is non-zero, yet `wait` does
not return signal 34: woken without timeout it takes the reachable
`unreachable` error path, and on timeout it returns 0 although an event
is pending — the drain step tests `trailing_zeros < 32` although the
mask is 64-bit. -/
theorem wait_bit34_failure :
    (1 <<< 34 : Nat) ≠ 0 ∧
    wait (1 <<< 34) 0 false = (Except.error (), 1 <<< 34) ∧
    wait (1 <<< 34) 0 true = (Except.ok 0, 1 <<< 34) := by decide

/-- C8: delivering signal 33 twice is idempotent on the mask, but no
`wait` call ever returns it: with signals 33 and 40 both pending, `wait`
returns 0 on timeout and the `unreachable` error on wake, instead of
draining 33 then 40. -/
theorem signals_33_40_lost :
    handler 33 (handler 33 0) = handler 33 0 ∧
    wait (handler 40 (handler 33 0)) 0 true =
      (Except.ok 0, handler 40 (handler 33 0)) ∧
    wait (handler 40 (handler 33 0)) 0 false =
      (Except.error (), handler 40 (handler 33 0)) := by decide

/-- C9: along every finite sequence of `update` / `update_force` calls
from `Control.new`, a cooling-down state's remaining count never exceeds
the configured lag, and at a remaining count of zero a non-rising tick
never decrements: it either turns the controller off or re-anchors with
the count reset to the lag — so the countdown subtraction cannot
underflow. -/
theorem remain_le_lag :
    (∀ (f : Function) (lag : Nat) (steps : List Step) (r : Nat) (a d : ℚ),
      (run (Control.new f lag) steps).state = State.Keep r a d → r ≤ lag) ∧
    (∀ (c : Control) (t a d : ℚ), c.state = State.Keep 0 a d →
      t ≤ c.last_temperature →
      ((c.update t).1.state = State.Off ∨
       (c.update t).1.state = State.Keep c.lag_time_cycle ((t + a) / 2)
         (c.temperature_rule.map ((t + a) / 2)))) := by
  constructor
  · intro f lag steps r a d hst
    have h0 : remBound (Control.new f lag) := by
      intro r a d h
      simp [Control.new] at h
    have hb := run_remBound steps (Control.new f lag) h0 r a d hst
    rwa [run_lag] at hb
  · intro c t a d hK h1
    obtain ⟨st, last, rule, lag⟩ := c
    simp only at hK
    subst hK
    by_cases h3 : t ≤ rule.stop_temperature
    · left; simp [Control.update, h1, h3]
    · right; simp [Control.update, h1, h3]

set_option maxHeartbeats 1000000 in
/-- Evaluation of a two-tick run ending in a cooling-down state, shared
by the invariant claim's witness. -/
theorem runStateEval :
    (run (Control.new exampleRule 2) [Step.update 45, Step.update 40]).state =
      State.Keep 2 45 (17 / 30) := by
  norm_num [run, applyStep, Control.update, Control.new, Function.map, exampleRule]

/-- C9 witness: after two updates from `Control.new exampleRule 2` the
controller is cooling down with the full lag of 2, and 2 ≤ 2. -/
theorem remain_le_lag_w :
    (run (Control.new exampleRule 2) [Step.update 45, Step.update 40]).state =
      State.Keep 2 45 (17 / 30) ∧ 2 ≤ 2 :=
  ⟨runStateEval,
   remain_le_lag.1 exampleRule 2 [Step.update 45, Step.update 40] 2 45 (17 / 30)
     runStateEval⟩

/-- C10: the signal handler is total over every C `int`: numbers outside
`1..=63` leave the mask untouched; for a number in `1..=63` the effect is
exactly OR-ing the single bit at that position, the shifted bit is below
`2^64`, and the mask stays a valid 64-bit value. -/
theorem handler_total (sig : Int) (mask : Nat) :
    ((sig ≤ 0 ∨ 64 ≤ sig) → handler sig mask = mask) ∧
    (1 ≤ sig → sig ≤ 63 →
      handler sig mask = mask ||| 2 ^ sig.toNat ∧ 2 ^ sig.toNat < 2 ^ 64) ∧
    (mask < 2 ^ 64 → handler sig mask < 2 ^ 64) := by
  refine ⟨?_, ?_, ?_⟩
  · intro h
    simp [handler, h]
  · intro h1 h2
    have hn : ¬ (sig ≤ 0 ∨ 64 ≤ sig) := by push_neg; omega
    refine ⟨by simp [handler, hn, Nat.one_shiftLeft], ?_⟩
    have hs : sig.toNat < 64 := by omega
    exact Nat.pow_lt_pow_right (by norm_num) hs
  · intro hm
    by_cases h : sig ≤ 0 ∨ 64 ≤ sig
    · simpa [handler, h] using hm
    · have hs : sig.toNat < 64 := by push_neg at h; omega
      have hb : (1 <<< sig.toNat) < 2 ^ 64 := by
        rw [Nat.one_shiftLeft]
        exact Nat.pow_lt_pow_right (by norm_num) hs
      have := Nat.or_lt_two_pow hm hb
      simpa [handler, h]

/-- C10 witness: delivering signal 10 (SIGUSR1) to a mask holding bit 15
sets exactly bit 10. -/
theorem handler_total_w :
    (1 : Int) ≤ 10 ∧ handler 10 (2 ^ 15) = 2 ^ 15 ||| 2 ^ 10 :=
  ⟨by decide, ((handler_total 10 (2 ^ 15)).2.1 (by decide) (by decide)).1⟩

end Fanctrl

